import Mathlib

/-!
Shallow embedding of `src/server/lib/document_sql_extractor.py`, a pipeline
that extracts plain text from base64-encoded OOXML (Word / Excel) payloads.

The Python string primitives (`strip`, `lower`, `endswith`, `in`, `int(...)`,
`str.replace`, `str.split()`) are modelled character-exactly on `List Char`
for the ASCII inputs the program manipulates.  The external libraries are
modelled at the granularity the source uses them:

* `base64.b64decode` followed by `zipfile.ZipFile(io.BytesIO(...))` is an
  environment parameter `Env.decode : String → Option Bytes`; `none` models
  `binascii.Error` on malformed base64, `some .invalid` models bytes that
  are not a valid ZIP container (`BadZipFile` raised when the archive is
  opened), and `some (.archive es)` models a readable archive.
* an archive entry carries its name, its byte content decoded as text
  (`raw`, used by the fallback flattener via `.decode(errors="ignore")`),
  and the result of `xml.etree.ElementTree.fromstring` on it (`xml`;
  `none` models a `ParseError`).
* an `ElementTree` element is `Xml`: tag (namespace-qualified, as
  ElementTree renders it), attribute list, `.text`, and child elements.

Python exceptions that escape a stage are modelled with `Except PyErr`;
the `try/except` blocks of the source become explicit `match`es.
-/

/-! ## Python string primitives on characters -/

/-- Whitespace characters recognised by `str.strip()` / `str.split()`
(ASCII fragment). -/
def pyWsChar (c : Char) : Bool :=
  c = ' ' || c = '\t' || c = '\n' || c = '\r' || c = '\x0b' || c = '\x0c'

/-- Remove leading whitespace, as `str.lstrip()`. -/
def stripLeftChars : List Char → List Char
  | [] => []
  | c :: rest => if pyWsChar c then stripLeftChars rest else c :: rest

/-- Remove trailing whitespace, as `str.rstrip()`. -/
def stripRightChars (l : List Char) : List Char :=
  (stripLeftChars l.reverse).reverse

/-- Remove surrounding whitespace, as `str.strip()`. -/
def pyStripChars (l : List Char) : List Char :=
  stripLeftChars (stripRightChars l)

/-- The string form of `str.strip()`. -/
def pyStrip (s : String) : String := ⟨pyStripChars s.data⟩

/-- `str.startswith`, on character lists (first argument is the string,
second the candidate leading part). -/
def startsWithL : List Char → List Char → Bool
  | _, [] => true
  | [], _ :: _ => false
  | c :: l, p :: ps => c = p && startsWithL l ps

/-- `str.endswith`, on character lists. -/
def endsWithL (l p : List Char) : Bool := startsWithL l.reverse p.reverse

/-- Substring containment, Python's `sub in s` (first argument is the
substring sought). -/
def containsL (p : List Char) : List Char → Bool
  | [] => startsWithL [] p
  | c :: rest => startsWithL (c :: rest) p || containsL p rest

/-- `str.lower()` on characters (ASCII). -/
def lowerL (l : List Char) : List Char := l.map Char.toLower

/-- `str.lower()` on strings. -/
def pyLower (s : String) : String := ⟨lowerL s.data⟩

/-! ## Python `int(...)` on strings

`int` strips surrounding whitespace, accepts an optional sign, and decimal
digits optionally separated by single underscores; anything else raises
`ValueError`, modelled by `none`. -/

def digitVal (c : Char) : Nat := c.toNat - '0'.toNat

def parseDigitsCore : Nat → List Char → Option Nat
  | acc, [] => some acc
  | acc, '_' :: c :: rest =>
    if c.isDigit then parseDigitsCore (acc * 10 + digitVal c) rest else none
  | acc, c :: rest =>
    if c.isDigit then parseDigitsCore (acc * 10 + digitVal c) rest else none

def parseDigitsStart : List Char → Option Nat
  | [] => none
  | c :: rest => if c.isDigit then parseDigitsCore (digitVal c) rest else none

def pyParseInt (s : String) : Option Int :=
  match pyStripChars s.data with
  | '+' :: rest => (parseDigitsStart rest).map (fun n => (n : Int))
  | '-' :: rest => (parseDigitsStart rest).map (fun n => -(n : Int))
  | l => (parseDigitsStart l).map (fun n => (n : Int))

/-! ## Python-style joining -/

/-- `sep.join(parts)`. -/
def joinWith (sep : String) : List String → String
  | [] => ""
  | [a] => a
  | a :: b :: rest => a ++ sep ++ joinWith sep (b :: rest)

/-! ## XML element trees (`xml.etree.ElementTree`) -/

mutual
inductive Xml where
  | elem (tag : String) (attrs : List (String × String)) (text : Option String) (children : XmlList)
inductive XmlList where
  | nil
  | cons (head : Xml) (tail : XmlList)
end

def XmlList.ofList : List Xml → XmlList
  | [] => .nil
  | c :: rest => .cons c (XmlList.ofList rest)

def XmlList.toList : XmlList → List Xml
  | .nil => []
  | .cons c rest => c :: rest.toList

def Xml.tag : Xml → String
  | .elem t _ _ _ => t

def Xml.attrs : Xml → List (String × String)
  | .elem _ a _ _ => a

def Xml.text : Xml → Option String
  | .elem _ _ tx _ => tx

def Xml.children : Xml → List Xml
  | .elem _ _ _ cs => cs.toList

/-! All strict descendants of an element, in document (preorder) order. -/

mutual
def Xml.descendants : Xml → List Xml
  | .elem _ _ _ cs => cs.descList
def XmlList.descList : XmlList → List Xml
  | .nil => []
  | .cons c rest => (c :: c.descendants) ++ rest.descList
end

/-- `element.findall(".//tag", ns)`: all descendants with the given
(namespace-qualified) tag, in document order. -/
def findallDesc (t : String) (x : Xml) : List Xml :=
  x.descendants.filter (fun c => c.tag = t)

/-- `element.find("tag", ns)`: first direct child with the given tag. -/
def findChild (t : String) (x : Xml) : Option Xml :=
  x.children.find? (fun c => c.tag = t)

/-- `element.findall("tag", ns)`: all direct children with the given tag. -/
def findallChild (t : String) (x : Xml) : List Xml :=
  x.children.filter (fun c => c.tag = t)

/-- `element.attrib.get(key)`. -/
def attrGet (x : Xml) (k : String) : Option String :=
  (x.attrs.find? (fun p => p.1 = k)).map Prod.snd

/-! Namespace-qualified tags used by the source (`WORD_NS` / `SHEET_NS`). -/

def wordNsUri : String := "http://schemas.openxmlformats.org/wordprocessingml/2006/main"

def sheetNsUri : String := "http://schemas.openxmlformats.org/spreadsheetml/2006/main"

/-- ElementTree renders a namespaced tag as `\x7buri\x7dlocal`. -/
def qual (ns loc : String) : String := "\x7b" ++ ns ++ "\x7d" ++ loc

def wT : String := qual wordNsUri "t"

def sT : String := qual sheetNsUri "t"

def sV : String := qual sheetNsUri "v"

def sIs : String := qual sheetNsUri "is"

def sRow : String := qual sheetNsUri "row"

def sC : String := qual sheetNsUri "c"

/-! ## Archives and the pipeline environment -/

/-- One ZIP entry: its path, its bytes decoded as text with
`errors="ignore"`, and the result of parsing those bytes as XML
(`none` = `ParseError`). -/
structure Entry where
  name : String
  raw : String
  xml : Option Xml

/-- Result of `base64.b64decode`: either bytes that `zipfile` rejects
(`invalid`, raising `BadZipFile` on open) or a readable archive. -/
inductive Bytes where
  | invalid
  | archive (entries : List Entry)

/-- `archive.read(name)` resolution: `none` models the `KeyError`. -/
def readEntry (entries : List Entry) (n : String) : Option Entry :=
  entries.find? (fun e => e.name = n)

/-- The composition `zipfile.ZipFile(io.BytesIO(base64.b64decode s))`,
abstracted: `none` = `binascii.Error` on malformed base64. -/
structure Env where
  decode : String → Option Bytes

/-- Python exceptions that cross a function boundary in this program. -/
inductive PyErr where
  | attributeError
  | parseError
  | badZip
deriving DecidableEq

/-! ## JSON values (`json.loads` output) and Python truthiness -/

inductive JsonVal where
  | jnull
  | jbool (b : Bool)
  | jnum (n : Int)
  | jstr (s : String)
  | jarr (items : List JsonVal)
  | jobj (fields : List (String × JsonVal))

def truthy : JsonVal → Bool
  | .jnull => false
  | .jbool b => b
  | .jnum n => n ≠ 0
  | .jstr s => s ≠ ""
  | .jarr items => !items.isEmpty
  | .jobj fields => !fields.isEmpty

def lookupField : List (String × JsonVal) → String → Option JsonVal
  | [], _ => none
  | (k, v) :: rest, key => if k = key then some v else lookupField rest key

/-- `payload.get(key)`: defined on dicts, `AttributeError` on any other
parsed JSON value. -/
def pyGet : JsonVal → String → Except PyErr (Option JsonVal)
  | .jobj fields, key => .ok (lookupField fields key)
  | _, _ => .error .attributeError

/-- Python `a or b` specialised to JSON values. -/
def jsonOr (a b : JsonVal) : JsonVal := if truthy a then a else b

/-- `dict.get` returns `None` for a missing key; `None` is the value
`jnull`. -/
def optJson (o : Option JsonVal) : JsonVal := o.getD .jnull

/-- Coercion performed by `(v or "").lower()` / `v.strip()` patterns:
falsy values collapse to `""`; truthy non-strings raise
`AttributeError` at the method call. -/
def asStringOrEmpty (v : JsonVal) : Except PyErr String :=
  if truthy v then
    match v with
    | .jstr s => .ok s
    | _ => .error .attributeError
  else .ok ""

/-! ## The source functions -/

/-- `_safe_load_json`: a failed `json.loads` (modelled by `none`) is
replaced by the empty dict. -/
def _safe_load_json : Option JsonVal → JsonVal
  | some v => v
  | none => .jobj []

/-- `detect_kind(name, mime)` on plain strings. -/
def detect_kind (name mime : String) : String :=
  let lower_name := pyLower name
  if endsWithL lower_name.data ".docx".data || endsWithL lower_name.data ".doc".data
      || containsL "wordprocessingml".data (pyLower mime).data then "word"
  else if endsWithL lower_name.data ".xlsx".data || endsWithL lower_name.data ".xls".data
      || containsL "spreadsheetml".data (pyLower mime).data then "excel"
  else ""

/-- `detect_kind` as called from `main` on parsed JSON values, keeping
Python's evaluation order: `(name or "").lower()` runs first, and
`(mime or "").lower()` only if the filename checks of the first
condition fail. -/
def detect_kind_j (name mime : JsonVal) : Except PyErr String := do
  let lower_name := pyLower (← asStringOrEmpty name)
  if endsWithL lower_name.data ".docx".data || endsWithL lower_name.data ".doc".data then
    .ok "word"
  else do
    let lower_mime := pyLower (← asStringOrEmpty mime)
    if containsL "wordprocessingml".data lower_mime.data then .ok "word"
    else if endsWithL lower_name.data ".xlsx".data || endsWithL lower_name.data ".xls".data
        || containsL "spreadsheetml".data lower_mime.data then .ok "excel"
    else .ok ""

/-- `extract_word_text`: read `word/document.xml` (absence is caught and
yields `""`), parse it, and join the non-whitespace `w:t` run texts with
newlines. -/
def extract_word_text (buff : Bytes) : Except PyErr String :=
  match buff with
  | .invalid => .error .badZip
  | .archive entries =>
    match readEntry entries "word/document.xml" with
    | none => .ok ""
    | some e =>
      match e.xml with
      | none => .error .parseError
      | some root =>
        let texts := (findallDesc wT root).map (fun node => node.text.getD "")
        .ok (joinWith "\n" (texts.filter (fun t => pyStrip t ≠ "")))

/-- `_load_shared_strings`: absent table is the empty list; a present but
malformed table raises `ParseError` out of the caller. -/
def _load_shared_strings (entries : List Entry) : Except PyErr (List String) :=
  match readEntry entries "xl/sharedStrings.xml" with
  | none => .ok []
  | some e =>
    match e.xml with
    | none => .error .parseError
    | some root => .ok ((findallDesc sT root).map (fun t => t.text.getD ""))

/-- The final two lines of `_cell_value`: the raw text of the cell's value
node (`None` when the node exists without text), or `""` when the node is
absent. -/
def cellValueFallback (cell : Xml) : Option String :=
  match findChild sV cell with
  | some v => v.text
  | none => some ""

/-- `_cell_value(cell, shared_strings)`.  Returns `none` exactly where the
Python returns `None` (value node present, text absent, no inline
string). -/
def _cell_value (cell : Xml) (shared_strings : List String) : Option String :=
  if attrGet cell "t" = some "s" then
    match findChild sV cell with
    | some v =>
      match v.text with
      | some txt =>
        match pyParseInt txt with
        | some index =>
          if 0 ≤ index ∧ index < (shared_strings.length : Int) then
            some (shared_strings.getD index.toNat "")
          else some ""
        | none => some ""
      | none => some ""
    | none => some ""
  else
    match findChild sIs cell with
    | some inline =>
      let texts := (findallDesc sT inline).map (fun t => t.text.getD "")
      if texts ≠ [] then some (joinWith "" texts) else cellValueFallback cell
    | none => cellValueFallback cell

/-- The per-row body of `extract_excel_text`: strip each resolved cell
value of the row's `s:c` children, drop the empty ones, join with single
spaces. -/
def rowText (shared_strings : List String) (row : Xml) : String :=
  let cells := (findallChild sC row).map
    (fun cell => pyStrip ((_cell_value cell shared_strings).getD ""))
  joinWith " " (cells.filter (fun c => c ≠ ""))

/-- The per-worksheet body of `extract_excel_text`: the joined text of
every `s:row` descendant, keeping only rows whose joined text is
non-empty. -/
def sheetRows (shared_strings : List String) (root : Xml) : List String :=
  (findallDesc sRow root).filterMap (fun row =>
    let joined := rowText shared_strings row
    if joined ≠ "" then some joined else none)

/-- `extract_excel_text`: load shared strings, then walk every
`xl/worksheets/*.xml` entry in archive order, collecting non-empty row
texts, and join them with newlines. -/
def extract_excel_text (buff : Bytes) : Except PyErr String :=
  match buff with
  | .invalid => .error .badZip
  | .archive entries => do
    let shared_strings ← _load_shared_strings entries
    let rows ← entries.foldlM (fun acc e =>
      if startsWithL e.name.data "xl/worksheets/".data && endsWithL e.name.data ".xml".data then
        match e.xml with
        | none => (.error .parseError : Except PyErr (List String))
        | some root => .ok (acc ++ sheetRows shared_strings root)
      else .ok acc) []
    .ok (joinWith "\n" rows)

/-! `_decode_entities`: five sequential `str.replace` passes, in source
order (`&quot;`, `&apos;`, `&lt;`, `&gt;`, `&amp;`). -/

def replQuot : List Char → List Char
  | '&' :: 'q' :: 'u' :: 'o' :: 't' :: ';' :: rest => '"' :: replQuot rest
  | c :: rest => c :: replQuot rest
  | [] => []

def replApos : List Char → List Char
  | '&' :: 'a' :: 'p' :: 'o' :: 's' :: ';' :: rest => '\'' :: replApos rest
  | c :: rest => c :: replApos rest
  | [] => []

def replLt : List Char → List Char
  | '&' :: 'l' :: 't' :: ';' :: rest => '<' :: replLt rest
  | c :: rest => c :: replLt rest
  | [] => []

def replGt : List Char → List Char
  | '&' :: 'g' :: 't' :: ';' :: rest => '>' :: replGt rest
  | c :: rest => c :: replGt rest
  | [] => []

def replAmp : List Char → List Char
  | '&' :: 'a' :: 'm' :: 'p' :: ';' :: rest => '&' :: replAmp rest
  | c :: rest => c :: replAmp rest
  | [] => []

def _decode_entities (text : String) : String :=
  ⟨replAmp (replGt (replLt (replApos (replQuot text.data))))⟩

/-- The three single-character `replace` passes of `_strip_xml_tags`
(`\r`, `\n`, `\t` each become a space). -/
def wsToSpace (l : List Char) : List Char :=
  l.map (fun c => if c = '\r' || c = '\n' || c = '\t' then ' ' else c)

/-- `replace("<", " <")`. -/
def expandLt (l : List Char) : List Char :=
  l.flatMap (fun c => if c = '<' then [' ', '<'] else [c])

/-- `replace(">", "> ")`. -/
def expandGt (l : List Char) : List Char :=
  l.flatMap (fun c => if c = '>' then ['>', ' '] else [c])

/-- `str.split()`: split on whitespace runs, discarding empty pieces.
First argument accumulates the current word, reversed. -/
def splitWsAux : List Char → List Char → List String
  | cur, [] => if cur.isEmpty then [] else [⟨cur.reverse⟩]
  | cur, c :: rest =>
    if pyWsChar c then
      if cur.isEmpty then splitWsAux [] rest
      else (⟨cur.reverse⟩ : String) :: splitWsAux [] rest
    else splitWsAux (c :: cur) rest

def pySplitWs (l : List Char) : List String := splitWsAux [] l

/-- `_strip_xml_tags`: decode entities, blank out line/tab characters,
space out angle brackets, split on whitespace. -/
def _strip_xml_tags (xml_text : String) : List String :=
  pySplitWs (expandGt (expandLt (wsToSpace (_decode_entities xml_text).data)))

/-- `extract_fallback_xml_text`: flatten every entry whose lowercased name
ends in `.xml`, keep the non-blank flattenings, join with newlines. -/
def extract_fallback_xml_text (buff : Bytes) : Except PyErr String :=
  match buff with
  | .invalid => .error .badZip
  | .archive entries =>
    let rows := entries.filterMap (fun e =>
      if endsWithL (lowerL e.name.data) ".xml".data then
        let flattened := joinWith " " (_strip_xml_tags e.raw)
        if pyStrip flattened ≠ "" then some (pyStrip flattened) else none
      else none)
    .ok (joinWith "\n" rows)

/-- `_normalise_base64_payload` on characters. -/
def afterComma : List Char → Option (List Char)
  | [] => none
  | c :: rest => if c = ',' then some rest else afterComma rest

def normaliseChars (l : List Char) : List Char :=
  if l.isEmpty then []
  else
    let trimmed := pyStripChars l
    if startsWithL trimmed "data:".data then
      match afterComma trimmed with
      | none => trimmed
      | some rest => rest
    else trimmed

def _normalise_base64_payload (text : String) : String := ⟨normaliseChars text.data⟩

/-- `_normalise_base64_payload(base64_data)` as applied to the parsed
JSON value in `main`: `if not text` accepts any falsy value, but a truthy
non-string raises `AttributeError` at `.strip()`. -/
def normaliseJson (v : JsonVal) : Except PyErr String := do
  let s ← asStringOrEmpty v
  .ok (_normalise_base64_payload s)

/-! ## `main` -/

/-- The single output shape `\x7b"text": ...\x7d`. -/
structure Output where
  text : String
deriving DecidableEq

/-- The `try/except` around the structured extractors in `main`: any
exception becomes `""`. -/
def exceptText : Except PyErr String → String
  | .ok t => t
  | .error _ => ""

/-- `extract_word_text` or `extract_excel_text` according to the detected
kind, exceptions flattened to `""` by `main`'s `try/except`. -/
def runStructured (kind : String) (buff : Bytes) : String :=
  exceptText (if kind = "word" then extract_word_text buff else extract_excel_text buff)

/-- The fallback stage of `main`: if the structured text strips to
nothing, replace it with the fallback extraction (whose own failure is
also swallowed to `""`). -/
def applyFallback (buff : Bytes) (text : String) : String :=
  if pyStrip text = "" then exceptText (extract_fallback_xml_text buff) else text

/-- `main()`: stdin is modelled as the result of `json.loads` (`none` for
a parse failure), the output as `Except PyErr Output` — an `.error` means
the process dies with an uncaught exception. -/
def mainRun (env : Env) (stdin : Option JsonVal) : Except PyErr Output := do
  let payload := _safe_load_json stdin
  let g1 ← pyGet payload "base64"
  let g2 ← pyGet payload "data"
  let base64_data := jsonOr (jsonOr (optJson g1) (optJson g2)) (.jstr "")
  let g3 ← pyGet payload "name"
  let g4 ← pyGet payload "mime"
  let nameVal := jsonOr (optJson g3) (.jstr "")
  let mimeVal := jsonOr (optJson g4) (.jstr "")
  let normalised_base64 ← normaliseJson base64_data
  if normalised_base64 = "" then
    .ok ⟨""⟩
  else do
    let kind ← detect_kind_j nameVal mimeVal
    if kind = "" then
      .ok ⟨""⟩
    else
      match env.decode normalised_base64 with
      | none => .ok ⟨""⟩
      | some raw_bytes =>
        let text := runStructured kind raw_bytes
        .ok ⟨applyFallback raw_bytes text⟩

/-- A request whose three recognised fields are plain strings. -/
def inp3 (p n m : String) : Option JsonVal :=
  some (.jobj [("base64", .jstr p), ("name", .jstr n), ("mime", .jstr m)])

/-- The text `mainRun` emits on a three-string-field request. -/
def mainText (env : Env) (p n m : String) : String :=
  let normalised := _normalise_base64_payload p
  if normalised = "" then ""
  else if detect_kind n m = "" then ""
  else
    match env.decode normalised with
    | none => ""
    | some b => applyFallback b (runStructured (detect_kind n m) b)

/-! ## Concrete elements and archives used by the witnesses below -/

/-- A shared-string-reference cell `<c t="s"><v>txt</v></c>`. -/
def sCellB (txt : String) : Xml :=
  .elem sC [("t", "s")] none (.ofList [.elem sV [] (some txt) .nil])

/-- A literal-value cell `<c><v>txt</v></c>`. -/
def vCellB (txt : String) : Xml :=
  .elem sC [] none (.ofList [.elem sV [] (some txt) .nil])

/-- An inline-string cell `<c><is><t>txt</t></is></c>`. -/
def isCellB (txt : String) : Xml :=
  .elem sC [] none (.ofList [.elem sIs [] none (.ofList [.elem sT [] (some txt) .nil])])

/-- A worksheet row element with the given cells. -/
def rowB (cells : List Xml) : Xml := .elem sRow [] none (.ofList cells)

/-- A worksheet root `<worksheet><sheetData><row…/></sheetData></worksheet>`. -/
def sheetB (rows : List Xml) : Xml :=
  .elem (qual sheetNsUri "worksheet") [] none
    (.ofList [.elem (qual sheetNsUri "sheetData") [] none (.ofList rows)])

/-- A shared-string table root with one `si/t` per entry. -/
def sstB (vals : List String) : Xml :=
  .elem (qual sheetNsUri "sst") [] none
    (.ofList (vals.map (fun v => .elem (qual sheetNsUri "si") [] none
      (.ofList [.elem sT [] (some v) .nil]))))

/-- A Word main document with one `w:t` run per given text. -/
def docB (runs : List String) : Xml :=
  .elem (qual wordNsUri "document") [] none
    (.ofList [.elem (qual wordNsUri "body") [] none
      (.ofList (runs.map (fun r => .elem wT [] (some r) .nil)))])

/-! ## Toolkit lemmas about the Python string primitives -/

theorem stripLeftChars_eq_nil_iff (l : List Char) :
    stripLeftChars l = [] ↔ ∀ c ∈ l, pyWsChar c = true := by
  induction l with
  | nil => simp [stripLeftChars]
  | cons c rest ih =>
    by_cases h : pyWsChar c = true
    · simp [stripLeftChars, h, ih]
    · simp [stripLeftChars, h]

theorem stripLeftChars_cons_of_not_ws {c : Char} (l : List Char) (h : pyWsChar c = false) :
    stripLeftChars (c :: l) = c :: l := by
  simp [stripLeftChars, h]

theorem stripLeftChars_append (a b : List Char) :
    stripLeftChars (a ++ b)
      = if stripLeftChars a = [] then stripLeftChars b else stripLeftChars a ++ b := by
  induction a with
  | nil => simp [stripLeftChars]
  | cons c rest ih =>
    by_cases h : pyWsChar c = true
    · simpa [stripLeftChars, h] using ih
    · simp [stripLeftChars, h]

theorem stripLeftChars_idem (l : List Char) :
    stripLeftChars (stripLeftChars l) = stripLeftChars l := by
  induction l with
  | nil => rfl
  | cons c rest ih =>
    by_cases h : pyWsChar c = true
    · simp [stripLeftChars, h, ih]
    · simp [stripLeftChars, h]

theorem stripRightChars_append (a b : List Char) :
    stripRightChars (a ++ b)
      = if stripRightChars b = [] then stripRightChars a else a ++ stripRightChars b := by
  unfold stripRightChars
  rw [List.reverse_append, stripLeftChars_append]
  by_cases h : stripLeftChars b.reverse = []
  · simp [h]
  · have h2 : (stripLeftChars b.reverse).reverse ≠ [] := by
      simpa using h
    simp [h, h2]

theorem stripRightChars_idem (l : List Char) :
    stripRightChars (stripRightChars l) = stripRightChars l := by
  unfold stripRightChars
  rw [List.reverse_reverse, stripLeftChars_idem]

theorem stripRightChars_eq_nil_iff (l : List Char) :
    stripRightChars l = [] ↔ ∀ c ∈ l, pyWsChar c = true := by
  unfold stripRightChars
  rw [List.reverse_eq_nil_iff, stripLeftChars_eq_nil_iff]
  constructor
  · intro h c hc
    exact h c (List.mem_reverse.mpr hc)
  · intro h c hc
    exact h c (List.mem_reverse.mp hc)

theorem stripRightChars_of_strip_left_nil {l : List Char}
    (h : stripLeftChars (stripRightChars l) = []) : stripRightChars l = [] := by
  have hall : ∀ c ∈ stripRightChars l, pyWsChar c = true :=
    (stripLeftChars_eq_nil_iff _).mp h
  have h2 : stripRightChars (stripRightChars l) = [] :=
    (stripRightChars_eq_nil_iff _).mpr hall
  rwa [stripRightChars_idem] at h2

theorem afterComma_append_comma {a : List Char} (b : List Char) (h : ',' ∉ a) :
    afterComma (a ++ ',' :: b) = some b := by
  induction a with
  | nil => simp [afterComma]
  | cons c rest ih =>
    have hc : c ≠ ',' := fun hc => h (hc ▸ List.mem_cons_self c rest)
    have hr : ',' ∉ rest := fun hr => h (List.mem_cons_of_mem c hr)
    simp [afterComma, hc, ih hr]

theorem afterComma_eq_none {l : List Char} (h : ',' ∉ l) : afterComma l = none := by
  induction l with
  | nil => rfl
  | cons c rest ih =>
    have hc : c ≠ ',' := fun hc => h (hc ▸ List.mem_cons_self c rest)
    have hr : ',' ∉ rest := fun hr => h (List.mem_cons_of_mem c hr)
    simp [afterComma, hc, ih hr]

theorem startsWithL_append_self (p l : List Char) : startsWithL (p ++ l) p = true := by
  induction p with
  | nil => simp [startsWithL]
  | cons c rest ih => simp [startsWithL, ih]

/-! ## Length facts about `joinWith` -/

theorem joinWith_length_ge_of_mem (sep : String) {r : String} :
    ∀ {l : List String}, r ∈ l → r.length ≤ (joinWith sep l).length := by
  intro l
  induction l with
  | nil => intro h; cases h
  | cons a tail ih =>
    intro h
    cases tail with
    | nil =>
      rcases List.mem_singleton.mp h with rfl
      exact le_refl _
    | cons b rest =>
      rcases List.mem_cons.mp h with rfl | h2
      · show r.length ≤ (r ++ sep ++ joinWith sep (b :: rest)).length
        simp [String.length_append]
        omega
      · calc r.length ≤ (joinWith sep (b :: rest)).length := ih h2
          _ ≤ (a ++ sep ++ joinWith sep (b :: rest)).length := by
              simp [String.length_append]

theorem string_ne_empty_of_length_pos {s : String} (h : 0 < s.length) : s ≠ "" := by
  intro hc
  rw [hc] at h
  simp at h

theorem string_length_pos_of_ne_empty {s : String} (h : s ≠ "") : 0 < s.length := by
  cases s with
  | mk data =>
    cases data with
    | nil => exact absurd rfl h
    | cons c rest => simp [String.length]

theorem joinWith_ne_empty_of_mem {sep r : String} {l : List String}
    (hm : r ∈ l) (hr : r ≠ "") : joinWith sep l ≠ "" :=
  string_ne_empty_of_length_pos
    (lt_of_lt_of_le (string_length_pos_of_ne_empty hr) (joinWith_length_ge_of_mem sep hm))

/-! ## Reduction of `mainRun` on three-string-field requests -/

theorem jsonOr_jstr_jnull (p : String) :
    jsonOr (jsonOr (.jstr p) .jnull) (.jstr "") = .jstr p := by
  by_cases h : p = "" <;> simp [jsonOr, truthy, h]

theorem jsonOr_jstr_empty (s : String) : jsonOr (.jstr s) (.jstr "") = .jstr s := by
  by_cases h : s = "" <;> simp [jsonOr, truthy, h]

theorem asStringOrEmpty_jstr (s : String) : asStringOrEmpty (.jstr s) = .ok s := by
  by_cases h : s = "" <;> simp [asStringOrEmpty, truthy, h]

theorem normaliseJson_jstr (s : String) :
    normaliseJson (.jstr s) = .ok (_normalise_base64_payload s) := by
  simp [normaliseJson, asStringOrEmpty_jstr, Bind.bind, Except.bind]

theorem detect_kind_j_jstr (n m : String) :
    detect_kind_j (.jstr n) (.jstr m) = .ok (detect_kind n m) := by
  cases hA : endsWithL (pyLower n).data ".docx".data <;>
    cases hB : endsWithL (pyLower n).data ".doc".data <;>
      cases hC : containsL "wordprocessingml".data (pyLower m).data <;>
        simp [detect_kind_j, detect_kind, asStringOrEmpty_jstr, Bind.bind, Except.bind,
          hA, hB, hC]
  split_ifs <;> rfl

theorem mainRun_inp3 (env : Env) (p n m : String) :
    mainRun env (inp3 p n m) = .ok ⟨mainText env p n m⟩ := by
  simp only [mainRun, inp3, _safe_load_json, pyGet, Except.bind, Bind.bind]
  rw [show lookupField [("base64", JsonVal.jstr p), ("name", JsonVal.jstr n), ("mime", JsonVal.jstr m)] "base64" = some (JsonVal.jstr p) from rfl]
  rw [show lookupField [("base64", JsonVal.jstr p), ("name", JsonVal.jstr n), ("mime", JsonVal.jstr m)] "data" = none from rfl]
  rw [show lookupField [("base64", JsonVal.jstr p), ("name", JsonVal.jstr n), ("mime", JsonVal.jstr m)] "name" = some (JsonVal.jstr n) from rfl]
  rw [show lookupField [("base64", JsonVal.jstr p), ("name", JsonVal.jstr n), ("mime", JsonVal.jstr m)] "mime" = some (JsonVal.jstr m) from rfl]
  simp only [optJson, Option.getD, jsonOr_jstr_jnull, jsonOr_jstr_empty, normaliseJson_jstr,
    detect_kind_j_jstr, Except.bind, mainText]
  by_cases hn : _normalise_base64_payload p = ""
  · simp [hn]
  · simp only [hn, if_false]
    by_cases hk : detect_kind n m = ""
    · simp [hk]
    · simp only [hk, if_false]
      cases env.decode (_normalise_base64_payload p) <;> rfl

/-! ## Case analysis of `mainText` -/

theorem mainText_of_empty_payload (env : Env) (p n m : String)
    (hn : _normalise_base64_payload p = "") : mainText env p n m = "" := by
  simp [mainText, hn]

theorem mainText_of_unknown_kind (env : Env) (p n m : String)
    (hk : detect_kind n m = "") : mainText env p n m = "" := by
  unfold mainText
  by_cases hn : _normalise_base64_payload p = ""
  · simp [hn]
  · simp [hn, hk]

theorem mainText_of_decode_fail (env : Env) (p n m : String)
    (hd : env.decode (_normalise_base64_payload p) = none) : mainText env p n m = "" := by
  unfold mainText
  by_cases hn : _normalise_base64_payload p = ""
  · simp [hn]
  · by_cases hk : detect_kind n m = ""
    · simp [hn, hk]
    · simp [hn, hk, hd]

theorem mainText_of_decode_ok (env : Env) (p n m : String) (b : Bytes)
    (hn : _normalise_base64_payload p ≠ "") (hk : detect_kind n m ≠ "")
    (hb : env.decode (_normalise_base64_payload p) = some b) :
    mainText env p n m = applyFallback b (runStructured (detect_kind n m) b) := by
  simp [mainText, hn, hk, hb]

theorem runStructured_invalid (kind : String) : runStructured kind .invalid = "" := by
  unfold runStructured
  split_ifs <;> rfl

theorem applyFallback_invalid : applyFallback .invalid "" = "" := rfl

/-- Claim C1: for every payload, filename and MIME string, the pipeline
entry point never raises: it emits exactly one result object with a
single string `text` field, and it degrades to `⟨""⟩` when base64
decoding fails, when the archive cannot be opened, and when structured
extraction strips to nothing while the fallback also yields nothing. -/
theorem C1_pipeline_never_raises (env : Env) (p n m : String) :
    (∃ t : String, mainRun env (inp3 p n m) = .ok ⟨t⟩)
    ∧ (env.decode (_normalise_base64_payload p) = none →
        mainRun env (inp3 p n m) = .ok ⟨""⟩)
    ∧ (env.decode (_normalise_base64_payload p) = some .invalid →
        mainRun env (inp3 p n m) = .ok ⟨""⟩)
    ∧ (∀ b : Bytes, env.decode (_normalise_base64_payload p) = some b →
        pyStrip (runStructured (detect_kind n m) b) = "" →
        exceptText (extract_fallback_xml_text b) = "" →
        mainRun env (inp3 p n m) = .ok ⟨""⟩) := by
  refine ⟨⟨mainText env p n m, mainRun_inp3 env p n m⟩, ?_, ?_, ?_⟩
  · intro hd
    rw [mainRun_inp3, mainText_of_decode_fail env p n m hd]
  · intro hd
    rw [mainRun_inp3]
    by_cases hn : _normalise_base64_payload p = ""
    · rw [mainText_of_empty_payload env p n m hn]
    · by_cases hk : detect_kind n m = ""
      · rw [mainText_of_unknown_kind env p n m hk]
      · rw [mainText_of_decode_ok env p n m .invalid hn hk hd, runStructured_invalid,
          applyFallback_invalid]
  · intro b hb hs hf
    rw [mainRun_inp3]
    by_cases hn : _normalise_base64_payload p = ""
    · rw [mainText_of_empty_payload env p n m hn]
    · by_cases hk : detect_kind n m = ""
      · rw [mainText_of_unknown_kind env p n m hk]
      · rw [mainText_of_decode_ok env p n m b hn hk hb]
        simp [applyFallback, hs, hf]

/-- Closed instance of C1 at a concrete request whose decode fails. -/
theorem C1_pipeline_never_raises_witness :
    mainRun ⟨fun _ => none⟩ (inp3 "QQ" "a.docx" "") = .ok ⟨""⟩ :=
  (C1_pipeline_never_raises ⟨fun _ => none⟩ "QQ" "a.docx" "").2.1 rfl

/-- Claim C7: a filename/MIME pair matching both the word-family and the
spreadsheet-family criteria classifies as the word family (the word check
runs first); a pair matching neither classifies as unknown (`""`). -/
theorem C7_word_precedence (n m : String) :
    ((endsWithL (pyLower n).data ".docx".data || endsWithL (pyLower n).data ".doc".data
        || containsL "wordprocessingml".data (pyLower m).data) = true →
      (endsWithL (pyLower n).data ".xlsx".data || endsWithL (pyLower n).data ".xls".data
        || containsL "spreadsheetml".data (pyLower m).data) = true →
      detect_kind n m = "word")
    ∧ ((endsWithL (pyLower n).data ".docx".data || endsWithL (pyLower n).data ".doc".data
        || containsL "wordprocessingml".data (pyLower m).data) = false →
      (endsWithL (pyLower n).data ".xlsx".data || endsWithL (pyLower n).data ".xls".data
        || containsL "spreadsheetml".data (pyLower m).data) = false →
      detect_kind n m = "") := by
  constructor
  · intro h1 _
    simp [detect_kind, h1]
  · intro h1 h2
    simp [detect_kind, h1, h2]

/-- Closed instance of C7: `a.doc` with a spreadsheet MIME matches both
families and classifies as word; an unrecognised pair gives `""`. -/
theorem C7_word_precedence_witness :
    detect_kind "a.doc" "x spreadsheetml y" = "word" ∧ detect_kind "q.txt" "text/plain" = "" :=
  ⟨(C7_word_precedence "a.doc" "x spreadsheetml y").1 (by decide) (by decide),
   (C7_word_precedence "q.txt" "text/plain").2 (by decide) (by decide)⟩

/-- Claim C8: an input whose filename and MIME classify as no recognised
kind short-circuits to `⟨""⟩`, and the result does not depend on the
decoding environment at all — no base64 decoding and no archive opening
is attempted. -/
theorem C8_unknown_kind_short_circuit (p n m : String) (hk : detect_kind n m = "") :
    (∀ env : Env, mainRun env (inp3 p n m) = .ok ⟨""⟩)
    ∧ (∀ env env' : Env, mainRun env (inp3 p n m) = mainRun env' (inp3 p n m)) := by
  constructor
  · intro env
    rw [mainRun_inp3, mainText_of_unknown_kind env p n m hk]
  · intro env env'
    rw [mainRun_inp3, mainRun_inp3, mainText_of_unknown_kind env p n m hk,
      mainText_of_unknown_kind env' p n m hk]

/-- Closed instance of C8 at a concrete unknown-kind request. -/
theorem C8_unknown_kind_short_circuit_witness :
    mainRun ⟨fun _ => some (.archive [])⟩ (inp3 "QQ" "q.txt" "text/plain") = .ok ⟨""⟩ :=
  (C8_unknown_kind_short_circuit "QQ" "q.txt" "text/plain" rfl).1 ⟨fun _ => some (.archive [])⟩

/-- Claim C2: a shared-string cell resolves in-bounds indices to the
table entry, and any out-of-bounds index or non-integer value text to the
empty string, never an error; in particular a row `[ref 99, "X"]`
against any 2-entry table joins to `"X"`. -/
theorem C2_shared_string_bounds (cell : Xml) (shared_strings : List String)
    (ht : attrGet cell "t" = some "s") :
    (∀ v txt i, findChild sV cell = some v → v.text = some txt → pyParseInt txt = some i →
        (0 ≤ i → i < (shared_strings.length : Int) →
          _cell_value cell shared_strings = some (shared_strings.getD i.toNat ""))
      ∧ (¬ (0 ≤ i ∧ i < (shared_strings.length : Int)) →
          _cell_value cell shared_strings = some ""))
    ∧ (∀ v txt, findChild sV cell = some v → v.text = some txt → pyParseInt txt = none →
        _cell_value cell shared_strings = some "")
    ∧ (∀ a b : String, rowText [a, b] (rowB [sCellB "99", vCellB "X"]) = "X") := by
  refine ⟨?_, ?_, ?_⟩
  · intro v txt i hv htxt hi
    constructor
    · intro h0 hlen
      simp [_cell_value, ht, hv, htxt, hi, h0, hlen]
    · intro hout
      simp [_cell_value, ht, hv, htxt, hi, hout]
  · intro v txt hv htxt hi
    simp [_cell_value, ht, hv, htxt, hi]
  · intro a b
    rfl

/-- Closed instance of C2: index 1 into `["A","B"]` gives `"B"`; index 99
gives `""`; the concrete out-of-range row joins to `"X"`. -/
theorem C2_shared_string_bounds_witness :
    _cell_value (sCellB "1") ["A", "B"] = some "B"
    ∧ _cell_value (sCellB "99") ["A", "B"] = some ""
    ∧ rowText ["A", "B"] (rowB [sCellB "99", vCellB "X"]) = "X" :=
  ⟨((C2_shared_string_bounds (sCellB "1") ["A", "B"] rfl).1 _ _ 1 rfl rfl rfl).1
      (by decide) (by decide),
   ((C2_shared_string_bounds (sCellB "99") ["A", "B"] rfl).1 _ _ 99 rfl rfl rfl).2
      (by decide),
   (C2_shared_string_bounds (sCellB "0") ["A", "B"] rfl).2.2 "A" "B"⟩

/-- Claim C3 (amended): for a non-shared-string cell, an inline-string
child determines the value — as the separator-free concatenation of its
nested text nodes — only when it has at least one nested text node; with
no inline-string child, or an inline-string child containing no text
node, the cell's plain value node is consulted instead. -/
theorem C3_inline_string_amended (cell : Xml) (shared_strings : List String)
    (ht : ¬ attrGet cell "t" = some "s") :
    (∀ inline, findChild sIs cell = some inline →
        (findallDesc sT inline).map (fun t => t.text.getD "") ≠ [] →
        _cell_value cell shared_strings
          = some (joinWith "" ((findallDesc sT inline).map (fun t => t.text.getD ""))))
    ∧ (findChild sIs cell = none →
        _cell_value cell shared_strings = cellValueFallback cell)
    ∧ (∀ inline, findChild sIs cell = some inline →
        (findallDesc sT inline).map (fun t => t.text.getD "") = [] →
        _cell_value cell shared_strings = cellValueFallback cell) := by
  refine ⟨?_, ?_, ?_⟩
  · intro inline hin hne
    simp [_cell_value, ht, hin, hne]
  · intro hin
    simp [_cell_value, ht, hin]
  · intro inline hin hnil
    simp [_cell_value, ht, hin, hnil]

/-- Counterexample to C3 as stated: a cell with an *empty* inline-string
child (`<is/>`) and a value node `<v>5</v>` resolves to `"5"` — the value
node is consulted even though an inline-string child is present, and the
result is not the (empty) concatenation of the child's text nodes. -/
theorem C3_counterexample :
    _cell_value (.elem sC [] none (.ofList [.elem sIs [] none .nil, .elem sV [] (some "5") .nil])) []
        = some "5"
    ∧ _cell_value (.elem sC [] none (.ofList [.elem sIs [] none .nil, .elem sV [] (some "5") .nil])) []
        ≠ some "" :=
  ⟨rfl, fun h => absurd (Option.some.inj h) (by decide)⟩

/-- Closed instance of the amended C3: an inline-string cell with one text
node resolves to that text; the cell with an empty inline child falls back
to its value node. -/
theorem C3_inline_string_amended_witness :
    _cell_value (isCellB "C") [] = some "C"
    ∧ _cell_value (.elem sC [] none (.ofList [.elem sIs [] none .nil, .elem sV [] (some "5") .nil])) []
        = cellValueFallback (.elem sC [] none (.ofList [.elem sIs [] none .nil, .elem sV [] (some "5") .nil])) :=
  ⟨(C3_inline_string_amended (isCellB "C") [] (by decide)).1 _ rfl (by decide),
   (C3_inline_string_amended _ [] (by decide)).2.2 _ rfl rfl⟩

/-! ## Word and spreadsheet extraction -/

theorem length_filter_not_add (p : String → Bool) (l : List String) :
    (l.filter (fun t => !p t)).length + (l.filter p).length = l.length := by
  induction l with
  | nil => rfl
  | cons a tl ih =>
    cases hp : p a <;> simp [List.filter_cons, hp] <;> omega

theorem filter_length_partition (l : List String) :
    (l.filter (fun t => pyStrip t ≠ "")).length
      = l.length - (l.filter (fun t => pyStrip t = "")).length := by
  have hfun : (fun t => decide (pyStrip t ≠ "")) = (fun t => !decide (pyStrip t = "")) := by
    funext t
    simp [decide_not]
  show (l.filter (fun t => decide (pyStrip t ≠ ""))).length = _
  rw [hfun]
  have h := length_filter_not_add (fun t => decide (pyStrip t = "")) l
  omega

/-- Claim C6: with the main document entry present and parseable, the
Word extractor returns exactly the non-whitespace run texts joined by
newlines, in document order; the number of output lines is the number of
runs minus the number of whitespace-only runs. -/
theorem C6_word_runs (es : List Entry) (e : Entry) (root : Xml)
    (he : readEntry es "word/document.xml" = some e) (hx : e.xml = some root) :
    extract_word_text (.archive es)
      = .ok (joinWith "\n" (((findallDesc wT root).map (fun node => node.text.getD "")).filter
          (fun t => pyStrip t ≠ "")))
    ∧ (((findallDesc wT root).map (fun node => node.text.getD "")).filter
          (fun t => pyStrip t ≠ "")).length
        = ((findallDesc wT root).map (fun node => node.text.getD "")).length
          - (((findallDesc wT root).map (fun node => node.text.getD "")).filter
              (fun t => pyStrip t = "")).length := by
  constructor
  · simp [extract_word_text, he, hx]
  · exact filter_length_partition _

/-- Closed instance of C6: three runs, one whitespace-only, give the two
non-blank runs on separate lines. -/
theorem C6_word_runs_witness :
    extract_word_text (.archive [⟨"word/document.xml", "", some (docB ["a", " ", "b"])⟩])
      = .ok "a\nb" :=
  (C6_word_runs [⟨"word/document.xml", "", some (docB ["a", " ", "b"])⟩] _ _ rfl rfl).1

theorem filterMap_keep_nonempty (f : Xml → String) (l : List Xml) :
    l.filterMap (fun row =>
        let joined := f row
        if joined ≠ "" then some joined else none)
      = (l.map f).filter (fun r => r ≠ "") := by
  induction l with
  | nil => rfl
  | cons a tl ih =>
    rw [List.filterMap_cons, List.map_cons, List.filter_cons]
    by_cases h : f a = ""
    · have h1 : (let joined := f a; if joined ≠ "" then some joined else none) = none := by
        simp [h]
      rw [h1, ih]
      simp [h]
    · have h1 : (let joined := f a; if joined ≠ "" then some joined else none) = some (f a) := by
        simp [h]
      rw [h1, ih]
      simp [h]

theorem sheetRows_eq_filter (shared_strings : List String) (root : Xml) :
    sheetRows shared_strings root
      = ((findallDesc sRow root).map (rowText shared_strings)).filter (fun r => r ≠ "") :=
  filterMap_keep_nonempty (rowText shared_strings) _

/-- Claim C4: rows assemble by trimming resolved cell values, joining the
non-empty values with single spaces, dropping rows that join to nothing,
and joining surviving rows with newlines; the concrete shared-table
`["A","B"]` row with a shared-string cell 0, an inline-string cell `"C"`
and a literal cell `"5"` yields the row text `"A C 5"`. -/
theorem C4_row_assembly (ssRoot wsRoot : Xml) (ssRaw wsRaw : String) :
    extract_excel_text (.archive
        [⟨"xl/sharedStrings.xml", ssRaw, some ssRoot⟩,
         ⟨"xl/worksheets/sheet1.xml", wsRaw, some wsRoot⟩])
      = .ok (joinWith "\n"
          (((findallDesc sRow wsRoot).map
              (rowText ((findallDesc sT ssRoot).map (fun t => t.text.getD "")))).filter
            (fun r => r ≠ "")))
    ∧ extract_excel_text (.archive
        [⟨"xl/sharedStrings.xml", "", some (sstB ["A", "B"])⟩,
         ⟨"xl/worksheets/sheet1.xml", "", some (sheetB [rowB [sCellB "0", isCellB "C", vCellB "5"]])⟩])
      = .ok "A C 5" := by
  constructor
  · show Except.ok (joinWith "\n"
        ([] ++ sheetRows ((findallDesc sT ssRoot).map (fun t => t.text.getD "")) wsRoot)) = _
    rw [List.nil_append, sheetRows_eq_filter]
  · rfl

/-- Claim C5: with a decodable payload and a recognised kind, the output
text is the structured extraction unless that strips to nothing — exactly
then, and only then, the fallback flattener's result replaces it; the
fallback flattens every archive entry whose (lowercased) name ends in
`.xml`, so whenever structured extraction of a Word archive strips to
nothing but some `.xml` entry flattens non-trivially, the pipeline still
emits non-empty text. -/
theorem C5_fallback_activation (env : Env) (p n m : String) (b : Bytes)
    (hn : _normalise_base64_payload p ≠ "") (hk : detect_kind n m ≠ "")
    (hb : env.decode (_normalise_base64_payload p) = some b) :
    (mainRun env (inp3 p n m)
      = .ok ⟨if pyStrip (runStructured (detect_kind n m) b) = ""
             then exceptText (extract_fallback_xml_text b)
             else runStructured (detect_kind n m) b⟩)
    ∧ (∀ es, b = .archive es → ∀ e ∈ es, endsWithL (lowerL e.name.data) ".xml".data = true →
        pyStrip (joinWith " " (_strip_xml_tags e.raw)) ≠ "" →
        ∃ t, extract_fallback_xml_text b = .ok t ∧ t ≠ "")
    ∧ (∀ es, b = .archive es → pyStrip (runStructured (detect_kind n m) b) = "" →
        ∀ e ∈ es, endsWithL (lowerL e.name.data) ".xml".data = true →
        pyStrip (joinWith " " (_strip_xml_tags e.raw)) ≠ "" →
        ∃ t, mainRun env (inp3 p n m) = .ok ⟨t⟩ ∧ t ≠ "") := by
  have hfb : ∀ es, b = .archive es → ∀ e ∈ es,
      endsWithL (lowerL e.name.data) ".xml".data = true →
      pyStrip (joinWith " " (_strip_xml_tags e.raw)) ≠ "" →
      ∃ t, extract_fallback_xml_text b = .ok t ∧ t ≠ "" := by
    intro es hes e he hxml hflat
    subst hes
    refine ⟨_, rfl, joinWith_ne_empty_of_mem ?_ hflat⟩
    refine List.mem_filterMap.mpr ⟨e, he, ?_⟩
    simp [hxml, hflat]
  have hmain : mainRun env (inp3 p n m)
      = .ok ⟨if pyStrip (runStructured (detect_kind n m) b) = ""
             then exceptText (extract_fallback_xml_text b)
             else runStructured (detect_kind n m) b⟩ := by
    rw [mainRun_inp3, mainText_of_decode_ok env p n m b hn hk hb]
    rfl
  refine ⟨hmain, hfb, ?_⟩
  intro es hes hs e he hxml hflat
  obtain ⟨t, hft, htne⟩ := hfb es hes e he hxml hflat
  refine ⟨t, ?_, htne⟩
  rw [hmain, if_pos hs, hft]
  rfl

/-- Closed instance of C5: a Word archive with no main document entry but
one flattenable XML entry yields the fallback text. -/
theorem C5_fallback_activation_witness :
    mainRun ⟨fun _ => some (.archive [⟨"other.xml", "<a>hi</a>", none⟩])⟩
        (inp3 "QQ" "a.docx" "") = .ok ⟨"<a> hi </a>"⟩
    ∧ ∃ t, extract_fallback_xml_text (.archive [⟨"other.xml", "<a>hi</a>", none⟩]) = .ok t
        ∧ t ≠ "" :=
  ⟨(C5_fallback_activation ⟨fun _ => some (.archive [⟨"other.xml", "<a>hi</a>", none⟩])⟩
      "QQ" "a.docx" "" (.archive [⟨"other.xml", "<a>hi</a>", none⟩])
      (by decide) (by decide) rfl).1,
   (C5_fallback_activation ⟨fun _ => some (.archive [⟨"other.xml", "<a>hi</a>", none⟩])⟩
      "QQ" "a.docx" "" (.archive [⟨"other.xml", "<a>hi</a>", none⟩])
      (by decide) (by decide) rfl).2.1 _ rfl ⟨"other.xml", "<a>hi</a>", none⟩
      (List.mem_singleton.mpr rfl) (by decide) (by decide)⟩

/-! ## Behaviour of `_normalise_base64_payload` -/

theorem normalise_plain (P : String)
    (hP : startsWithL (pyStripChars P.data) "data:".data = false) :
    _normalise_base64_payload P = pyStrip P := by
  unfold _normalise_base64_payload normaliseChars pyStrip
  cases hE : P.data.isEmpty
  · simp only [hE, Bool.false_eq_true, if_false, hP]
  · have h0 : P.data = [] := List.isEmpty_iff.mp hE
    simp [h0, pyStripChars, stripRightChars, stripLeftChars]

theorem normalise_no_comma (P : String)
    (h1 : startsWithL (pyStripChars P.data) "data:".data = true)
    (h2 : ',' ∉ pyStripChars P.data) :
    _normalise_base64_payload P = pyStrip P := by
  unfold _normalise_base64_payload normaliseChars pyStrip
  cases hE : P.data.isEmpty
  · simp only [hE, Bool.false_eq_true, if_false, h1, if_true, afterComma_eq_none h2]
  · have h0 : P.data = [] := List.isEmpty_iff.mp hE
    simp [h0, pyStripChars, stripRightChars, stripLeftChars]

theorem stripLeftChars_data_prefixed (x : List Char) :
    stripLeftChars ("data:".data ++ x) = "data:".data ++ x := by
  rw [show ("data:".data : List Char) = 'd' :: "ata:".data from rfl]
  rw [List.cons_append]
  exact stripLeftChars_cons_of_not_ws _ (by decide)

theorem normalise_data_uri (m P : String) (hm : ',' ∉ m.data) :
    _normalise_base64_payload ("data:" ++ m ++ ";base64," ++ P)
      = ⟨stripRightChars P.data⟩ := by
  have hdata : ("data:" ++ m ++ ";base64," ++ P).data
      = ("data:".data ++ (m.data ++ ";base64".data ++ [','])) ++ P.data := by
    rw [String.data_append, String.data_append, String.data_append]
    rw [show ((";base64," : String).data : List Char) = ";base64".data ++ [','] from rfl]
    simp [List.append_assoc]
  have hnocomma : ',' ∉ "data:".data ++ (m.data ++ ";base64".data) := by
    intro hc
    rcases List.mem_append.mp hc with h | h
    · revert h
      decide
    · rcases List.mem_append.mp h with h | h
      · exact hm h
      · revert h
        decide
  unfold _normalise_base64_payload normaliseChars
  rw [hdata]
  have hne : (("data:".data ++ (m.data ++ ";base64".data ++ [','])) ++ P.data).isEmpty = false := by
    rw [show ("data:".data : List Char) = 'd' :: "ata:".data from rfl]
    simp
  rw [hne]
  simp only [Bool.false_eq_true, if_false]
  have hR1 : stripRightChars ("data:".data ++ (m.data ++ ";base64".data ++ [',']))
      = "data:".data ++ (m.data ++ ";base64".data ++ [',']) := by
    rw [show ("data:".data ++ (m.data ++ ";base64".data ++ [',']) : List Char)
        = ("data:".data ++ (m.data ++ ";base64".data)) ++ [','] from by simp [List.append_assoc]]
    rw [stripRightChars_append]
    rw [show stripRightChars [','] = [','] from rfl]
    simp [List.append_assoc]
  have hstrip : pyStripChars (("data:".data ++ (m.data ++ ";base64".data ++ [','])) ++ P.data)
      = "data:".data ++ (m.data ++ ";base64".data ++ (',' :: stripRightChars P.data)) := by
    unfold pyStripChars
    rw [stripRightChars_append]
    by_cases hPr : stripRightChars P.data = []
    · rw [if_pos hPr, hR1, hPr, stripLeftChars_data_prefixed]
    · rw [if_neg hPr]
      rw [show (("data:".data ++ (m.data ++ ";base64".data ++ [','])) ++ stripRightChars P.data : List Char)
          = "data:".data ++ (m.data ++ ";base64".data ++ (',' :: stripRightChars P.data)) from by
        simp [List.append_assoc]]
      rw [stripLeftChars_data_prefixed]
  rw [hstrip]
  have hsw : startsWithL ("data:".data ++ (m.data ++ ";base64".data ++ (',' :: stripRightChars P.data)))
      "data:".data = true := startsWithL_append_self _ _
  rw [hsw]
  simp only [if_true]
  have hac : afterComma ("data:".data ++ (m.data ++ ";base64".data ++ (',' :: stripRightChars P.data)))
      = some (stripRightChars P.data) := by
    rw [show ("data:".data ++ (m.data ++ ";base64".data ++ (',' :: stripRightChars P.data)) : List Char)
        = ("data:".data ++ (m.data ++ ";base64".data)) ++ (',' :: stripRightChars P.data) from by
      simp [List.append_assoc]]
    exact afterComma_append_comma _ hnocomma
  rw [hac]

/-- Claim C9 (amended): for a comma-free mediatype part and a payload
string whose trimmed form does not itself start with `data:`, wrapping
the payload in `data:<mediatype>;base64,` yields the same pipeline output
as passing the payload directly (the hypothesis on `decode` records that
Python's `b64decode` ignores surrounding whitespace, which it discards
along with every other non-alphabet character); a trimmed string that
does not start with `data:`, or that starts with `data:` but contains no
comma, is used whole as the payload. -/
theorem C9_data_uri_amended (env : Env) (m P n mi : String)
    (hdec : ∀ s : String, env.decode (pyStrip s) = env.decode s)
    (hm : ',' ∉ m.data)
    (hP : startsWithL (pyStripChars P.data) "data:".data = false) :
    mainRun env (inp3 ("data:" ++ m ++ ";base64," ++ P) n mi) = mainRun env (inp3 P n mi)
    ∧ (∀ s : String, startsWithL (pyStripChars s.data) "data:".data = false →
        _normalise_base64_payload s = pyStrip s)
    ∧ (∀ s : String, startsWithL (pyStripChars s.data) "data:".data = true →
        ',' ∉ pyStripChars s.data →
        _normalise_base64_payload s = pyStrip s) := by
  refine ⟨?_, normalise_plain, normalise_no_comma⟩
  rw [mainRun_inp3, mainRun_inp3]
  suffices h : mainText env ("data:" ++ m ++ ";base64," ++ P) n mi = mainText env P n mi by
    rw [h]
  have h1 := normalise_data_uri m P hm
  have h2 := normalise_plain P hP
  by_cases hPr : stripRightChars P.data = []
  · have e1 : _normalise_base64_payload ("data:" ++ m ++ ";base64," ++ P) = "" := by
      rw [h1, hPr]
    have e2 : _normalise_base64_payload P = "" := by
      rw [h2]
      show (⟨pyStripChars P.data⟩ : String) = ""
      unfold pyStripChars
      rw [hPr]
      rfl
    rw [mainText_of_empty_payload _ _ _ _ e1, mainText_of_empty_payload _ _ _ _ e2]
  · have hL : stripLeftChars (stripRightChars P.data) ≠ [] := by
      intro hc
      exact hPr (stripRightChars_of_strip_left_nil hc)
    have e1ne : _normalise_base64_payload ("data:" ++ m ++ ";base64," ++ P) ≠ "" := by
      rw [h1]
      intro hc
      exact hPr (congrArg String.data hc)
    have e2ne : _normalise_base64_payload P ≠ "" := by
      rw [h2]
      intro hc
      exact hL (congrArg String.data hc)
    have hdeq : env.decode (_normalise_base64_payload P)
        = env.decode (_normalise_base64_payload ("data:" ++ m ++ ";base64," ++ P)) := by
      rw [h1, h2]
      have h3 : pyStrip (⟨stripRightChars P.data⟩ : String) = pyStrip P := by
        show (⟨pyStripChars (stripRightChars P.data)⟩ : String) = ⟨pyStripChars P.data⟩
        unfold pyStripChars
        rw [stripRightChars_idem]
      rw [← h3, hdec]
    by_cases hk : detect_kind n mi = ""
    · rw [mainText_of_unknown_kind _ _ _ _ hk, mainText_of_unknown_kind _ _ _ _ hk]
    · cases hd : env.decode (_normalise_base64_payload P) with
      | none =>
        have hd1 : env.decode (_normalise_base64_payload ("data:" ++ m ++ ";base64," ++ P)) = none :=
          hdeq.symm.trans hd
        rw [mainText_of_decode_fail _ _ _ _ hd1, mainText_of_decode_fail _ _ _ _ hd]
      | some b =>
        have hd1 : env.decode (_normalise_base64_payload ("data:" ++ m ++ ";base64," ++ P)) = some b :=
          hdeq.symm.trans hd
        rw [mainText_of_decode_ok _ _ _ _ b e1ne hk hd1, mainText_of_decode_ok _ _ _ _ b e2ne hk hd]

/-- Closed instance of the amended C9 at a concrete payload and
environment. -/
theorem C9_data_uri_amended_witness :
    mainRun ⟨fun _ => none⟩ (inp3 ("data:" ++ "application/x" ++ ";base64," ++ "QQ") "a.docx" "")
      = mainRun ⟨fun _ => none⟩ (inp3 "QQ" "a.docx" "") :=
  (C9_data_uri_amended ⟨fun _ => none⟩ "application/x" "QQ" "a.docx" ""
    (fun _ => rfl) (by decide) (by decide)).1

/-- The decoding environment for the C9 counterexample: the true base64
payload decodes to a Word archive, while the same payload re-wrapped by a
data-URI prefix gains five extra base64-alphabet characters (`datax`) and
so decodes to garbage bytes that are not a ZIP container. -/
def cexEnvC9 : Env :=
  ⟨fun s => if s = "UEsDBA==" then
      some (.archive [⟨"word/document.xml", "", some (docB ["hi"])⟩])
    else some .invalid⟩

/-- Counterexample to C9 as stated: for the payload `"data:x,UEsDBA=="`
(itself of data-URI shape), wrapping it in `data:<mediatype>;base64,`
changes the pipeline output — the wrapped run takes everything after the
*first* comma, mangling the payload. -/
theorem C9_counterexample :
    mainRun cexEnvC9
        (inp3 ("data:" ++ "application/msword" ++ ";base64," ++ "data:x,UEsDBA==") "f.docx" "")
      ≠ mainRun cexEnvC9 (inp3 "data:x,UEsDBA==" "f.docx" "") := by
  intro h
  rw [show mainRun cexEnvC9
        (inp3 ("data:" ++ "application/msword" ++ ";base64," ++ "data:x,UEsDBA==") "f.docx" "")
      = .ok ⟨""⟩ from rfl] at h
  rw [show mainRun cexEnvC9 (inp3 "data:x,UEsDBA==" "f.docx" "") = .ok ⟨"hi"⟩ from rfl] at h
  injection h with h2
  injection h2 with h3
  exact absurd h3 (by decide)

/-- Claim C10 (amended): stdin that fails to parse as JSON is replaced by
the empty object, and a parsed JSON *object* lacking the recognised
payload keys defaults every field to the empty string — both cases output
`⟨""⟩` without raising.  (A parsed value that is not an object instead
raises `AttributeError`; see the counterexample.) -/
theorem C10_invalid_json_amended (env : Env) :
    mainRun env none = .ok ⟨""⟩
    ∧ (∀ fields, lookupField fields "base64" = none → lookupField fields "data" = none →
        mainRun env (some (.jobj fields)) = .ok ⟨""⟩) := by
  constructor
  · rfl
  · intro fields h1 h2
    simp only [mainRun, _safe_load_json, pyGet, Except.bind, Bind.bind, h1, h2]
    rfl

/-- Closed instance of the amended C10: an object with only an
unrecognised key yields `⟨""⟩`, as does unparseable stdin. -/
theorem C10_invalid_json_amended_witness :
    mainRun ⟨fun _ => none⟩ (some (.jobj [("foo", .jnum 1)])) = .ok ⟨""⟩
    ∧ mainRun ⟨fun _ => none⟩ none = .ok ⟨""⟩ :=
  ⟨(C10_invalid_json_amended ⟨fun _ => none⟩).2 [("foo", .jnum 1)] rfl rfl,
   (C10_invalid_json_amended ⟨fun _ => none⟩).1⟩

/-- Counterexample to C10 as stated: stdin holding valid JSON that is not
an object — here the list `[1, 2]` — makes `payload.get` raise
`AttributeError`, which propagates out of `main` instead of producing
`⟨""⟩`. -/
theorem C10_counterexample :
    mainRun ⟨fun _ => none⟩ (some (.jarr [.jnum 1, .jnum 2])) = .error .attributeError
    ∧ mainRun ⟨fun _ => none⟩ (some (.jarr [.jnum 1, .jnum 2])) ≠ .ok ⟨""⟩ :=
  ⟨rfl, fun h => by
    rw [show mainRun ⟨fun _ => none⟩ (some (.jarr [.jnum 1, .jnum 2]))
        = .error .attributeError from rfl] at h
    exact Except.noConfusion h⟩
